import Mathlib

/-!
Verification development for the sales-analytics dashboard (`src/app.py`).

The file shallowly embeds the data-normalization and metric-derivation
pipeline of the dashboard: a pandas `DataFrame` becomes a column-oriented
association list from column name to a list of cells, `pd.to_numeric` /
`pd.to_datetime` with errors set to coerce become total cell coercion
functions, and each helper of the source (`load_sales_data`,
`load_sku_data`, `calculate_metrics`, `assign_status`, the rep-performance
group-by in `main`, the growth block in `main`, and the commission-rate
guard in `main`) becomes an executable Lean definition.  Machine floats are
modelled by `ℚ` plus an explicit `Option` for the NaN produced by a mean of
an empty series; the date type is modelled by an integer day ordinal.
-/

namespace SalesApp

/-- One cell of a data frame.  A raw cell is either an already numeric
value, an already date-typed value, a raw string annotated with the result
of attempting to parse it as a number and as a date (`none` meaning the
parse fails, as `pd.to_numeric` / `pd.to_datetime` with errors set to coerce
would yield NaN / NaT), or a missing value (NaN/NaT/None). -/
inductive Cell where
  | num (q : ℚ)
  | date (d : ℤ)
  | str (s : String) (numP : Option ℚ) (dateP : Option ℤ)
  | null
  deriving DecidableEq, Repr

/-- A data frame, column oriented: an association list from column name to
the list of cells of that column (pandas allows duplicate column labels,
which this representation keeps). -/
abbrev Table (α : Type) := List (String × List α)

/-- The column labels of a table, in order (`df.columns`). -/
def colNames (t : Table α) : List String := t.map Prod.fst

/-- `c in df.columns`. -/
def hasCol (t : Table α) (c : String) : Bool := (colNames t).contains c

/-- The first column labelled `c`, if any. -/
def getCol? (t : Table α) (c : String) : Option (List α) :=
  (t.find? (fun p => p.1 = c)).map Prod.snd

/-- The first column labelled `c`, defaulting to the empty column. -/
def getColD (t : Table α) (c : String) : List α := (getCol? t c).getD []

/-- `df[c] = v`: replace every column labelled `c` (pandas assigns through
all duplicate labels), appending a new column when the label is absent. -/
def setCol (t : Table α) (c : String) (v : List α) : Table α :=
  if hasCol t c then t.map (fun p => if p.1 = c then (c, v) else p)
  else t ++ [(c, v)]

/-- Apply `f` to every cell of every column labelled `c`. -/
def mapCol (t : Table α) (c : String) (f : α → α) : Table α :=
  t.map (fun p => if p.1 = c then (p.1, p.2.map f) else p)

/-- Number of rows (length of the first column; `0` for a column-less
frame, matching `len(pd.DataFrame())`). -/
def nRows (t : Table α) : ℕ :=
  match t with
  | [] => 0
  | p :: _ => p.2.length

/-- Rectangularity: every column has the same number of rows. -/
def Rect (t : Table α) : Prop := ∀ p ∈ t, p.2.length = nRows t

/-! ### Column-name canonicalization (`app.py` lines 47 and 80) -/

/-- `str.strip()`: drop whitespace from both ends. -/
def stripChars (l : List Char) : List Char :=
  ((l.dropWhile Char.isWhitespace).reverse.dropWhile Char.isWhitespace).reverse

/-- `str.upper()` character-wise. -/
def upperChars (l : List Char) : List Char := l.map Char.toUpper

/-- `str.replace(' ', '_')`: every space becomes an underscore.  No other
character (in particular no hyphen) is rewritten. -/
def underscoreSpaces (l : List Char) : List Char :=
  l.map (fun c => if c = ' ' then '_' else c)

/-- Column-name canonicalization of `load_sales_data`
(`df.columns.str.strip().str.upper().str.replace(' ', '_')`). -/
def canonSales (s : String) : String :=
  ⟨underscoreSpaces (upperChars (stripChars s.data))⟩

/-- Column-name canonicalization of `load_sku_data`
(`df.columns.str.strip().str.upper()` — no replacement step). -/
def canonSku (s : String) : String :=
  ⟨upperChars (stripChars s.data)⟩

/-- Rename all columns of an order-level table as `load_sales_data` does. -/
def canonSalesCols (t : Table α) : Table α := t.map (fun p => (canonSales p.1, p.2))

/-- Rename all columns of a line-item table as `load_sku_data` does. -/
def canonSkuCols (t : Table α) : Table α := t.map (fun p => (canonSku p.1, p.2))

/-! ### Status classifier (`assign_status`, `app.py` lines 372–376) -/

/-- The four client-status buckets (the emoji-decorated strings of the
source, as an enumeration). -/
inductive ClientStatus where
  | recent | warm | cold | lost
  deriving DecidableEq, Repr

/-- `assign_status(days)`: `< 30` Recent, `< 90` Warm, `< 180` Cold, else
Lost.  `days` is the integer day difference `(max_date - last_order).dt.days`. -/
def assign_status (days : ℤ) : ClientStatus :=
  if days < 30 then .recent
  else if days < 90 then .warm
  else if days < 180 then .cold
  else .lost

/-! ### Commission-rate guard (`main`, `app.py` line 277) -/

/-- `commission_rate = (total_commission / total_revenue * 100) if
total_revenue > 0 else 0`. -/
def commissionRate (commission revenue : ℚ) : ℚ :=
  if 0 < revenue then commission / revenue * 100 else 0

/-! ### Cell coercions -/

/-- One cell under `pd.to_numeric(.., errors=coerce).fillna(0)`: numeric
values pass through, a date value numifies to its ordinal, a string parses
to its numeric value or (unparseable) to NaN which `fillna(0)` turns into
`0`, and a missing value becomes `0`. -/
def toNumericFill0 : Cell → Cell
  | .num q => .num q
  | .date d => .num (d : ℚ)
  | .str _ (some q) _ => .num q
  | .str _ none _ => .num 0
  | .null => .num 0

/-- One cell under `pd.to_datetime(.., errors=coerce)`: date values pass
through, a string parses to its date or (unparseable) to NaT (`null`), a
missing value stays NaT, and a numeric value is read as an epoch offset
(abstracted as its integer floor). -/
def toDatetime : Cell → Cell
  | .num q => .date ⌊q⌋
  | .date d => .date d
  | .str _ _ (some d) => .date d
  | .str _ _ none => .null
  | .null => .null

/-- The numeric value of a cell for aggregation purposes: `some q` for a
numeric cell, `none` for anything pandas treats as NaN when summing or
averaging with `skipna=True`. -/
def cellNum? : Cell → Option ℚ
  | .num q => some q
  | _ => none

/-- `df[c].sum()`: NaN-skipping sum of a column's numeric values (sum of an
empty or all-NaN column is `0`, as in pandas). -/
def colSum (t : Table Cell) (c : String) : ℚ :=
  ((getColD t c).filterMap cellNum?).sum

/-- `df[c].mean()`: NaN-skipping mean; `none` models the NaN returned for
an empty (or all-NaN) column. -/
def colMean (t : Table Cell) (c : String) : Option ℚ :=
  let vs := (getColD t c).filterMap cellNum?
  if vs.length = 0 then none else some (vs.sum / (vs.length : ℚ))

/-- `df[c].nunique()`: number of distinct non-null values of the column. -/
def colNunique (t : Table Cell) (c : String) : ℕ :=
  (((getColD t c).filter (fun x => x ≠ Cell.null)).dedup).length

/-! ### Date detection (`load_sales_data`, `app.py` lines 50–55) -/

/-- The fixed priority list of candidate date columns. -/
def dateCandidates : List String := ["ORDER_DATE", "DATE", "CREATION_DATE"]

/-- The first candidate date column present in the table, if any. -/
def firstDateCol (t : Table Cell) : Option String :=
  dateCandidates.find? (fun c => hasCol t c)

/-- The date-detection loop: for the first present candidate `col`,
`df[col] = pd.to_datetime(df[col], errors=coerce)` then
`df[ORDER_DATE] = df[col]`, then `break`; later candidates are never
touched.  When no candidate is present the table is unchanged. -/
def convertDates (t : Table Cell) : Table Cell :=
  match firstDateCol t with
  | none => t
  | some c =>
      let coerced := (getColD t c).map toDatetime
      setCol (setCol t c coerced) "ORDER_DATE" coerced

/-! ### Numeric coercion (`app.py` lines 57–61 and 97–100) -/

/-- The numeric columns of `load_sales_data`. -/
def salesNumericCols : List String := ["TOTAL_ITEM", "TOTAL_VALUES", "TOTAL_COMMISSION"]

/-- The numeric columns of `load_sku_data`. -/
def skuNumericCols : List String := ["QUANTITY", "UNIT_PRICE", "LINE_TOTAL"]

/-- One iteration of the coercion loop: `if col in df.columns:
df[col] = pd.to_numeric(df[col], errors=coerce).fillna(0)`. -/
def coerceNumStep (t : Table Cell) (c : String) : Table Cell :=
  if hasCol t c then mapCol t c toNumericFill0 else t

/-- The whole coercion loop over a list of column names. -/
def applyNumeric (cols : List String) (t : Table Cell) : Table Cell :=
  cols.foldl coerceNumStep t

/-! ### Column aliasing (`load_sku_data`, `app.py` lines 82–95) -/

/-- The fixed alias table `column_mapping` (Python dicts iterate in
insertion order). -/
def skuAliases : List (String × String) :=
  [("MATRIX_ORDER_ID", "ORDER_ID"),
   ("CREATION_DATE", "ORDER_DATE"),
   ("ORDER_LINES/PRODUCT/REFERENCE", "SKU"),
   ("ORDER_LINES/PRODUCT/NAME", "PRODUCT_NAME"),
   ("ORDER_LINES/QUANTITY", "QUANTITY"),
   ("ORDER_LINES/UNIT_PRICE", "UNIT_PRICE"),
   ("ORDER_LINES/TOTAL", "LINE_TOTAL")]

/-- `df.rename(columns={old: new})`: relabel every column called `old`
(pandas renames all duplicate labels and does not care whether `new`
already exists, so a rename can create duplicate labels). -/
def renameCol (old new : String) (t : Table α) : Table α :=
  t.map (fun p => if p.1 = old then (new, p.2) else p)

/-- The alias loop: `for old, new in column_mapping.items(): if old in
df.columns: df.rename(columns={old: new}, inplace=True)`.  There is no
check that `new` is absent. -/
def applyAliases (t : Table α) : Table α :=
  skuAliases.foldl (fun t p => if hasCol t p.1 then renameCol p.1 p.2 t else t) t

/-- The composite relabelling an alias pass performs on a single column
name (no canonical name is itself an alias, so the sequential renames
compose to one lookup). -/
def aliasCanon (c : String) : String :=
  ((skuAliases.find? (fun p => p.1 = c)).map Prod.snd).getD c

/-! ### Line-total synthesis (`load_sku_data`, `app.py` lines 102–105) -/

/-- Row-wise product `df[QUANTITY] * df[UNIT_PRICE]` on cells (NaN
propagates through arithmetic on anything non-numeric). -/
def cellMul : Cell → Cell → Cell
  | .num a, .num b => .num (a * b)
  | _, _ => .null

/-- When LINE_TOTAL is a column and `df[LINE_TOTAL].sum() == 0`, and
quantity and unit price are both present, set `df[LINE_TOTAL] =
df[QUANTITY] * df[UNIT_PRICE]`; otherwise leave the table alone. -/
def synthLineTotal (t : Table Cell) : Table Cell :=
  if hasCol t "LINE_TOTAL" ∧ colSum t "LINE_TOTAL" = 0 then
    if hasCol t "QUANTITY" ∧ hasCol t "UNIT_PRICE" then
      setCol t "LINE_TOTAL"
        (List.zipWith cellMul (getColD t "QUANTITY") (getColD t "UNIT_PRICE"))
    else t
  else t

/-- The numeric portion of `load_sku_data`: coercion of the three numeric
columns followed by the line-total synthesis heuristic. -/
def loadSkuNumeric (t : Table Cell) : Table Cell :=
  synthLineTotal (applyNumeric skuNumericCols t)

/-! ### KPI metrics (`calculate_metrics`, `app.py` lines 114–124) -/

/-- The fixed KPI set.  Sums and distinct counts are always numbers;
`avg_order_value` is an `Option` because the mean of a present-but-empty
revenue column is NaN (`none`) in pandas. -/
structure Metrics where
  total_revenue : ℚ
  total_orders : ℕ
  total_commission : ℚ
  unique_customers : ℕ
  avg_order_value : Option ℚ
  unique_reps : ℕ
  deriving DecidableEq, Repr

/-- `calculate_metrics(df)`: each metric degrades to `0` when its source
column is absent. -/
def calculate_metrics (t : Table Cell) : Metrics where
  total_revenue := if hasCol t "TOTAL_VALUES" then colSum t "TOTAL_VALUES" else 0
  total_orders := nRows t
  total_commission := if hasCol t "TOTAL_COMMISSION" then colSum t "TOTAL_COMMISSION" else 0
  unique_customers := if hasCol t "CUSTOMER_ID" then colNunique t "CUSTOMER_ID" else 0
  avg_order_value := if hasCol t "TOTAL_VALUES" then colMean t "TOTAL_VALUES" else some 0
  unique_reps := if hasCol t "SALE_REPRESENTATIVE" then colNunique t "SALE_REPRESENTATIVE" else 0

/-! ### Rep-performance aggregation (`main`, `app.py` lines 320–325)

`df.groupby(SALE_REPRESENTATIVE)` aggregated with the sum of TOTAL_VALUES
and the order count, then `.sort_values(TOTAL_VALUES, ascending=False)`
and `.head(top_n)`.

`groupby` with the default `sort=True` lists the groups in ascending key
order; `sort_values(ascending=False)` reverses the input, runs a stable
ascending sort, and reverses again (pandas `nargsort`), which amounts to a
stable descending sort; `head` truncates. -/

/-- One aggregated group: key (the rep), revenue sum, and order count. -/
structure Grp where
  key : String
  revenue : ℚ
  orders : ℕ
  deriving DecidableEq, Repr

/-- Ascending insertion of a key into a sorted key list. -/
def insertAsc (x : String) : List String → List String
  | [] => [x]
  | y :: ys => if x ≤ y then x :: y :: ys else y :: insertAsc x ys

/-- Ascending insertion sort on key lists. -/
def sortAsc : List String → List String
  | [] => []
  | x :: xs => insertAsc x (sortAsc xs)

/-- The set of group keys, in ascending order (`groupby(..., sort=True)`).
The keys are made distinct and then sorted; pre-sort order is irrelevant. -/
def sortedKeys (rows : List (String × ℚ)) : List String :=
  sortAsc (rows.map Prod.fst).dedup

/-- Group-by with per-group revenue sum and row count, groups in ascending
key order. -/
def groupAgg (rows : List (String × ℚ)) : List Grp :=
  (sortedKeys rows).map (fun k =>
    { key := k
      revenue := ((rows.filter (fun r => r.1 = k)).map Prod.snd).sum
      orders := (rows.filter (fun r => r.1 = k)).length })

/-- Stable descending insertion by revenue: `x` goes before the first
element whose revenue is `≤` its own, so earlier elements win ties. -/
def insertDesc (x : Grp) : List Grp → List Grp
  | [] => [x]
  | y :: ys => if y.revenue ≤ x.revenue then x :: y :: ys else y :: insertDesc x ys

/-- Stable descending sort by revenue (the effect of
`sort_values(TOTAL_VALUES, ascending=False)` with a stable underlying
argsort). -/
def sortRevDesc : List Grp → List Grp
  | [] => []
  | x :: xs => insertDesc x (sortRevDesc xs)

/-- The whole rep-performance pipeline: group, sort descending by revenue,
truncate to the top `n`. -/
def repPerf (rows : List (String × ℚ)) (n : ℕ) : List Grp :=
  (sortRevDesc (groupAgg rows)).take n

/-- First-appearance order of the group keys in the input (what the claim
calls stable input order). -/
def firstAppearanceKeys (rows : List (String × ℚ)) : List String :=
  (rows.map Prod.fst).foldl (fun acc k => if k ∈ acc then acc else acc ++ [k]) []

/-! ### Growth metrics (`main`, `app.py` lines 576–579) -/

/-- Tail of `Series.pct_change() * 100` given the previous value: each
entry is `(y - prev)/prev * 100`, undefined (`none`, modelling the
non-finite result) when the previous value is `0`. -/
def pctChangeFrom (prev : ℚ) : List ℚ → List (Option ℚ)
  | [] => []
  | y :: ys => (if prev = 0 then none else some ((y - prev) / prev * 100)) :: pctChangeFrom y ys

/-- `monthly[Revenue].pct_change() * 100`: the first entry has no
predecessor and is NaN (`none`). -/
def pctChangeSeries : List ℚ → List (Option ℚ)
  | [] => []
  | x :: xs => none :: pctChangeFrom x xs

/-- `Series.mean()` with the default `skipna=True` over a series with
possible NaNs: the mean of the defined entries, NaN (`none`) when none is
defined. -/
def meanSkipna (l : List (Option ℚ)) : Option ℚ :=
  let vs := l.filterMap id
  if vs.length = 0 then none else some (vs.sum / (vs.length : ℚ))

/-- The growth block: guarded by `if len(monthly) > 1:`; inside, the growth
series and its skip-NaN mean.  For shorter series nothing is computed. -/
def growthBlock (monthly : List ℚ) : Option (List (Option ℚ) × Option ℚ) :=
  if 1 < monthly.length then
    some (pctChangeSeries monthly, meanSkipna (pctChangeSeries monthly))
  else none

/-! ## Helper lemmas about the table model -/

theorem hasCol_iff_mem {α : Type} (t : Table α) (c : String) :
    hasCol t c = true ↔ c ∈ colNames t := by
  unfold hasCol List.contains
  exact List.elem_iff

theorem hasCol_false_iff {α : Type} (t : Table α) (c : String) :
    hasCol t c = false ↔ ∀ p ∈ t, p.1 ≠ c := by
  rw [← Bool.not_eq_true, hasCol_iff_mem]
  simp only [colNames, List.mem_map, not_exists]
  constructor
  · intro h p hp hpc
    exact h p ⟨hp, hpc⟩
  · rintro h p ⟨hp, hpc⟩
    exact h p hp hpc

theorem map_if_eq_self {α : Type} (t : Table α) (c : String)
    (f : String × List α → String × List α) (h : hasCol t c = false) :
    t.map (fun p => if p.1 = c then f p else p) = t := by
  rw [hasCol_false_iff] at h
  conv_rhs => rw [← List.map_id t]
  exact List.map_congr_left (fun p hp => by rw [if_neg (h p hp)]; rfl)

theorem getCol?_eq_none {α : Type} (t : Table α) (c : String)
    (h : hasCol t c = false) : getCol? t c = none := by
  rw [hasCol_false_iff] at h
  unfold getCol?
  rw [List.find?_eq_none.mpr]
  · rfl
  · intro p hp
    simpa using h p hp

theorem find?_map_setCol_self {α : Type} (t : Table α) (c : String) (v : List α)
    (h : hasCol t c = true) :
    List.find? (fun p => p.1 = c) (t.map (fun p => if p.1 = c then (c, v) else p))
      = some (c, v) := by
  induction t with
  | nil => simp [hasCol, colNames] at h
  | cons p t' ih =>
      by_cases hp : p.1 = c
      · rw [List.map_cons, if_pos hp, List.find?_cons_of_pos _ (by simp)]
      · rw [List.map_cons, if_neg hp, List.find?_cons_of_neg _ (by simp [hp])]
        apply ih
        rw [hasCol_iff_mem] at h ⊢
        simp only [colNames, List.map_cons, List.mem_cons] at h
        rcases h with h | h
        · exact absurd h.symm hp
        · exact h

theorem find?_map_setCol_ne {α : Type} (t : Table α) (c c' : String) (v : List α)
    (hne : c' ≠ c) :
    List.find? (fun p => p.1 = c') (t.map (fun p => if p.1 = c then (c, v) else p))
      = List.find? (fun p => p.1 = c') t := by
  induction t with
  | nil => rfl
  | cons p t' ih =>
      by_cases hp : p.1 = c
      · rw [List.map_cons, if_pos hp,
          List.find?_cons_of_neg _ (by simp [Ne.symm hne]),
          List.find?_cons_of_neg _ (by simp [hp, Ne.symm hne])]
        exact ih
      · rw [List.map_cons, if_neg hp]
        by_cases hpc : p.1 = c'
        · rw [List.find?_cons_of_pos _ (by simp [hpc]),
            List.find?_cons_of_pos _ (by simp [hpc])]
        · rw [List.find?_cons_of_neg _ (by simp [hpc]),
            List.find?_cons_of_neg _ (by simp [hpc])]
          exact ih

theorem getCol?_setCol_self {α : Type} (t : Table α) (c : String) (v : List α) :
    getCol? (setCol t c v) c = some v := by
  unfold setCol
  by_cases h : hasCol t c = true
  · rw [if_pos h]
    unfold getCol?
    rw [find?_map_setCol_self t c v h]
    rfl
  · rw [if_neg h]
    have hf : hasCol t c = false := Bool.eq_false_iff.mpr h
    unfold getCol?
    rw [List.find?_append]
    rw [List.find?_eq_none.mpr (fun p hp => by
      simpa using (hasCol_false_iff t c).mp hf p hp)]
    rw [Option.none_or, List.find?_cons_of_pos _ (by simp)]
    rfl

theorem getColD_eq_nil_of_empty (t : Table Cell) (c : String)
    (hr : Rect t) (h0 : nRows t = 0) : getColD t c = [] := by
  unfold getColD getCol?
  cases hf : List.find? (fun p => p.1 = c) t with
  | none => rfl
  | some p =>
      have hp := List.mem_of_find?_eq_some hf
      have hlen := hr p hp
      rw [h0] at hlen
      simp [List.length_eq_zero.mp hlen]

theorem coerceNumStep_eq_map (t : Table Cell) (c : String) :
    coerceNumStep t c
      = t.map (fun p => if p.1 = c then (p.1, p.2.map toNumericFill0) else p) := by
  unfold coerceNumStep mapCol
  by_cases h : hasCol t c = true
  · rw [if_pos h]
  · rw [if_neg h]
    exact (map_if_eq_self t c _ (Bool.eq_false_iff.mpr h)).symm

theorem applyNumeric_eq_map (cols : List String) (t : Table Cell) (hnd : cols.Nodup) :
    applyNumeric cols t
      = t.map (fun p => if p.1 ∈ cols then (p.1, p.2.map toNumericFill0) else p) := by
  induction cols generalizing t with
  | nil => simp [applyNumeric]
  | cons c cs ih =>
      have hc : c ∉ cs := (List.nodup_cons.mp hnd).1
      have hcs : cs.Nodup := (List.nodup_cons.mp hnd).2
      show applyNumeric cs (coerceNumStep t c) = _
      rw [ih _ hcs, coerceNumStep_eq_map, List.map_map]
      apply List.map_congr_left
      intro p _
      by_cases hp : p.1 = c
      · simp only [Function.comp, if_pos hp]
        rw [if_neg (by simpa [hp] using hc), if_pos (by simp [hp])]
      · simp only [Function.comp, if_neg hp]
        by_cases hpc : p.1 ∈ cs
        · rw [if_pos hpc, if_pos (by simp [hpc])]
        · rw [if_neg hpc, if_neg (by simp [hp, hpc])]

theorem toNumericFill0_isNum (x : Cell) : ∃ q, toNumericFill0 x = Cell.num q := by
  cases x with
  | num q => exact ⟨q, rfl⟩
  | date d => exact ⟨(d : ℚ), rfl⟩
  | str s nP dP =>
      cases nP with
      | none => exact ⟨0, rfl⟩
      | some q => exact ⟨q, rfl⟩
  | null => exact ⟨0, rfl⟩

theorem renameCol_guard_eq {α : Type} (t : Table α) (old nw : String) :
    (if hasCol t old then renameCol old nw t else t) = renameCol old nw t := by
  by_cases h : hasCol t old = true
  · rw [if_pos h]
  · rw [if_neg h]
    unfold renameCol
    exact (map_if_eq_self t old _ (Bool.eq_false_iff.mpr h)).symm

theorem foldl_rename_eq_map {α : Type} (L : List (String × String)) (t : Table α) :
    L.foldl (fun t p => if hasCol t p.1 then renameCol p.1 p.2 t else t) t
      = t.map (fun q => (L.foldl (fun c p => if c = p.1 then p.2 else c) q.1, q.2)) := by
  induction L generalizing t with
  | nil => simp
  | cons p L' ih =>
      rw [List.foldl_cons, renameCol_guard_eq, ih]
      unfold renameCol
      rw [List.map_map]
      apply List.map_congr_left
      intro q _
      by_cases hq : q.1 = p.1 <;> simp [hq, Function.comp]

theorem foldl_skuAliases_name (c : String) :
    skuAliases.foldl (fun a p => if a = p.1 then p.2 else a) c = aliasCanon c := by
  by_cases h1 : c = "MATRIX_ORDER_ID"
  · subst h1; rfl
  by_cases h2 : c = "CREATION_DATE"
  · subst h2; rfl
  by_cases h3 : c = "ORDER_LINES/PRODUCT/REFERENCE"
  · subst h3; rfl
  by_cases h4 : c = "ORDER_LINES/PRODUCT/NAME"
  · subst h4; rfl
  by_cases h5 : c = "ORDER_LINES/QUANTITY"
  · subst h5; rfl
  by_cases h6 : c = "ORDER_LINES/UNIT_PRICE"
  · subst h6; rfl
  by_cases h7 : c = "ORDER_LINES/TOTAL"
  · subst h7; rfl
  · have g1 : ("MATRIX_ORDER_ID" : String) ≠ c := fun h => h1 h.symm
    have g2 : ("CREATION_DATE" : String) ≠ c := fun h => h2 h.symm
    have g3 : ("ORDER_LINES/PRODUCT/REFERENCE" : String) ≠ c := fun h => h3 h.symm
    have g4 : ("ORDER_LINES/PRODUCT/NAME" : String) ≠ c := fun h => h4 h.symm
    have g5 : ("ORDER_LINES/QUANTITY" : String) ≠ c := fun h => h5 h.symm
    have g6 : ("ORDER_LINES/UNIT_PRICE" : String) ≠ c := fun h => h6 h.symm
    have g7 : ("ORDER_LINES/TOTAL" : String) ≠ c := fun h => h7 h.symm
    simp [skuAliases, aliasCanon, List.find?, h1, h2, h3, h4, h5, h6, h7,
      g1, g2, g3, g4, g5, g6, g7]

theorem mem_insertDesc (x y : Grp) (l : List Grp) :
    y ∈ insertDesc x l ↔ y = x ∨ y ∈ l := by
  induction l with
  | nil => simp [insertDesc]
  | cons z zs ih =>
      unfold insertDesc
      by_cases h : z.revenue ≤ x.revenue
      · rw [if_pos h]
        simp [or_comm, or_assoc, or_left_comm]
      · rw [if_neg h]
        simp only [List.mem_cons, ih]
        tauto

theorem pairwise_insertDesc (x : Grp) (l : List Grp)
    (h : l.Pairwise (fun a b => b.revenue ≤ a.revenue)) :
    (insertDesc x l).Pairwise (fun a b => b.revenue ≤ a.revenue) := by
  induction l with
  | nil => simp [insertDesc]
  | cons z zs ih =>
      unfold insertDesc
      rcases List.pairwise_cons.mp h with ⟨hz, hzs⟩
      by_cases hle : z.revenue ≤ x.revenue
      · rw [if_pos hle]
        refine List.pairwise_cons.mpr ⟨?_, h⟩
        intro y hy
        rcases List.mem_cons.mp hy with rfl | hy
        · exact hle
        · exact le_trans (hz y hy) hle
      · rw [if_neg hle]
        refine List.pairwise_cons.mpr ⟨?_, ih hzs⟩
        intro y hy
        rcases (mem_insertDesc x y zs).mp hy with rfl | hy
        · exact le_of_not_le hle
        · exact hz y hy

theorem pairwise_sortRevDesc (l : List Grp) :
    (sortRevDesc l).Pairwise (fun a b => b.revenue ≤ a.revenue) := by
  induction l with
  | nil => exact List.Pairwise.nil
  | cons x xs ih => exact pairwise_insertDesc x _ ih

theorem getCol?_setCol_ne {α : Type} (t : Table α) (c c' : String) (v : List α)
    (hne : c' ≠ c) : getCol? (setCol t c v) c' = getCol? t c' := by
  unfold setCol
  by_cases h : hasCol t c = true
  · rw [if_pos h]
    unfold getCol?
    rw [find?_map_setCol_ne t c c' v hne]
  · rw [if_neg h]
    unfold getCol?
    rw [List.find?_append]
    rw [show List.find? (fun p => p.1 = c') [(c, v)] = none by
      rw [List.find?_cons_of_neg _ (by simp [Ne.symm hne])]; rfl]
    cases List.find? (fun p => p.1 = c') t <;> rfl

/-! ## Claim theorems -/

/-- C1 counterexample.  The claim says both loaders canonicalize column
names by trimming, uppercasing, and replacing spaces AND hyphens with
underscores, identically for both source kinds, so no output name contains
a space or a hyphen.  On the code this is false: `load_sales_data` keeps
hyphens, `load_sku_data` keeps both spaces and hyphens, and the two
functions disagree on names containing spaces. -/
theorem c1_canonicalization_counterexample :
    canonSales "Total-Commission" = "TOTAL-COMMISSION" ∧
    '-' ∈ (canonSales "Total-Commission").data ∧
    canonSku "Unit Price" = "UNIT PRICE" ∧
    ' ' ∈ (canonSku "Unit Price").data ∧
    canonSales "Unit Price" ≠ canonSku "Unit Price" := by
  refine ⟨rfl, ?_, rfl, ?_, ?_⟩ <;> decide

/-- C1 (amended): the order-level canonicalization trims, uppercases and
replaces spaces (but not hyphens) with underscores, so order-level output
names contain no spaces; the line-item canonicalization only trims and
uppercases, keeping spaces and hyphens; the two functions are not
identical. -/
theorem c1_canonicalization_amended :
    (∀ s : String, ((canonSales s).data.all (fun c => !(c = ' '))) = true) ∧
    canonSales " Unit Price " = "UNIT_PRICE" ∧
    canonSales " Total-Commission " = "TOTAL-COMMISSION" ∧
    canonSku " Unit Price " = "UNIT PRICE" ∧
    canonSku " Total-Commission " = "TOTAL-COMMISSION" := by
  refine ⟨?_, rfl, rfl, rfl, rfl⟩
  intro s
  rw [List.all_eq_true]
  intro c hc
  have hc' : c ∈ underscoreSpaces (upperChars (stripChars s.data)) := hc
  rcases List.mem_map.mp hc' with ⟨c0, _, rfl⟩
  by_cases h : c0 = ' ' <;> simp [h]

/-- C2: `calculate_metrics` on the empty table returns every KPI as zero
and never raises; more generally on any rectangular zero-row table every
sum and count metric is zero (the mean-based `avg_order_value` is the NaN
sentinel `none` when a revenue column is present but empty, and `some 0`
when it is absent — pandas raises in neither case). -/
theorem c2_metrics_empty_table :
    calculate_metrics ([] : Table Cell) =
      { total_revenue := 0, total_orders := 0, total_commission := 0,
        unique_customers := 0, avg_order_value := some 0, unique_reps := 0 } ∧
    ∀ t : Table Cell, Rect t → nRows t = 0 →
      (calculate_metrics t).total_revenue = 0 ∧
      (calculate_metrics t).total_orders = 0 ∧
      (calculate_metrics t).total_commission = 0 ∧
      (calculate_metrics t).unique_customers = 0 ∧
      (calculate_metrics t).unique_reps = 0 := by
  constructor
  · rfl
  · intro t hr h0
    have hs : ∀ c, colSum t c = 0 := fun c => by
      unfold colSum
      rw [getColD_eq_nil_of_empty t c hr h0]
      rfl
    have hn : ∀ c, colNunique t c = 0 := fun c => by
      unfold colNunique
      rw [getColD_eq_nil_of_empty t c hr h0]
      rfl
    refine ⟨?_, h0, ?_, ?_, ?_⟩ <;> simp [calculate_metrics, hs, hn]

/-- C2 witness: a rectangular table with a present revenue column and zero
rows has all sum and count metrics equal to zero. -/
theorem c2_metrics_empty_table_witness :
    (calculate_metrics [("TOTAL_VALUES", ([] : List Cell))]).total_revenue = 0 ∧
    (calculate_metrics [("TOTAL_VALUES", ([] : List Cell))]).total_orders = 0 ∧
    (calculate_metrics [("TOTAL_VALUES", ([] : List Cell))]).total_commission = 0 ∧
    (calculate_metrics [("TOTAL_VALUES", ([] : List Cell))]).unique_customers = 0 ∧
    (calculate_metrics [("TOTAL_VALUES", ([] : List Cell))]).unique_reps = 0 :=
  c2_metrics_empty_table.2 [("TOTAL_VALUES", ([] : List Cell))]
    (fun p hp => by
      simp only [List.mem_singleton] at hp
      rw [hp]
      rfl)
    rfl

/-- C3: after the numeric coercion of `load_sku_data`, if the line-total
column is present and sums to exactly zero and quantity and unit price are
both present, the synthesis step replaces every row's line total by the
row-wise product quantity times unit price; in every other case (sum
nonzero, or either column absent) the line-total values carried into the
heuristic are left unchanged. -/
theorem c3_line_total_synthesis (t : Table Cell) :
    (hasCol (applyNumeric skuNumericCols t) "LINE_TOTAL" = true →
     colSum (applyNumeric skuNumericCols t) "LINE_TOTAL" = 0 →
     hasCol (applyNumeric skuNumericCols t) "QUANTITY" = true →
     hasCol (applyNumeric skuNumericCols t) "UNIT_PRICE" = true →
     getCol? (loadSkuNumeric t) "LINE_TOTAL" =
       some (List.zipWith cellMul
         (getColD (applyNumeric skuNumericCols t) "QUANTITY")
         (getColD (applyNumeric skuNumericCols t) "UNIT_PRICE"))) ∧
    ((¬ colSum (applyNumeric skuNumericCols t) "LINE_TOTAL" = 0 ∨
      hasCol (applyNumeric skuNumericCols t) "QUANTITY" = false ∨
      hasCol (applyNumeric skuNumericCols t) "UNIT_PRICE" = false) →
     getCol? (loadSkuNumeric t) "LINE_TOTAL"
       = getCol? (applyNumeric skuNumericCols t) "LINE_TOTAL") ∧
    (∀ q u : ℚ, cellMul (Cell.num q) (Cell.num u) = Cell.num (q * u)) := by
  refine ⟨?_, ?_, fun q u => rfl⟩
  · intro h1 h2 h3 h4
    unfold loadSkuNumeric synthLineTotal
    rw [if_pos ⟨h1, h2⟩, if_pos ⟨h3, h4⟩]
    exact getCol?_setCol_self _ _ _
  · intro hcase
    unfold loadSkuNumeric synthLineTotal
    by_cases hout : hasCol (applyNumeric skuNumericCols t) "LINE_TOTAL" = true ∧
        colSum (applyNumeric skuNumericCols t) "LINE_TOTAL" = 0
    · rw [if_pos hout]
      rcases hcase with hc | hc | hc
      · exact absurd hout.2 hc
      · rw [if_neg (fun hin => by rw [hin.1] at hc; cases hc)]
      · rw [if_neg (fun hin => by rw [hin.2] at hc; cases hc)]
    · rw [if_neg hout]

/-- C3 witness: a table whose coerced line totals sum to zero and which has
quantity and unit-price columns gets its line total rebuilt as the
row-wise product. -/
theorem c3_line_total_synthesis_witness :
    getCol? (loadSkuNumeric
      [("LINE_TOTAL", [Cell.num 0]), ("QUANTITY", [Cell.num 2]),
       ("UNIT_PRICE", [Cell.num 3])]) "LINE_TOTAL" =
    some (List.zipWith cellMul
      (getColD (applyNumeric skuNumericCols
        [("LINE_TOTAL", [Cell.num 0]), ("QUANTITY", [Cell.num 2]),
         ("UNIT_PRICE", [Cell.num 3])]) "QUANTITY")
      (getColD (applyNumeric skuNumericCols
        [("LINE_TOTAL", [Cell.num 0]), ("QUANTITY", [Cell.num 2]),
         ("UNIT_PRICE", [Cell.num 3])]) "UNIT_PRICE")) :=
  (c3_line_total_synthesis
      [("LINE_TOTAL", [Cell.num 0]), ("QUANTITY", [Cell.num 2]),
       ("UNIT_PRICE", [Cell.num 3])]).1
    (by decide) (by with_unfolding_all decide) (by decide) (by decide)

/-- C4: the status classifier is a pure total function of one integer with
boundary-inclusive-low buckets: Recent iff days < 30, Warm iff 30 ≤ days
< 90, Cold iff 90 ≤ days < 180, Lost iff days ≥ 180, with the stated
boundary values. -/
theorem c4_assign_status_boundaries :
    (∀ d : ℤ,
      (assign_status d = ClientStatus.recent ↔ d < 30) ∧
      (assign_status d = ClientStatus.warm ↔ 30 ≤ d ∧ d < 90) ∧
      (assign_status d = ClientStatus.cold ↔ 90 ≤ d ∧ d < 180) ∧
      (assign_status d = ClientStatus.lost ↔ 180 ≤ d)) ∧
    assign_status 29 = ClientStatus.recent ∧
    assign_status 30 = ClientStatus.warm ∧
    assign_status 89 = ClientStatus.warm ∧
    assign_status 90 = ClientStatus.cold ∧
    assign_status 179 = ClientStatus.cold ∧
    assign_status 180 = ClientStatus.lost := by
  refine ⟨?_, by decide, by decide, by decide, by decide, by decide, by decide⟩
  intro d
  unfold assign_status
  refine ⟨?_, ?_, ?_, ?_⟩ <;> split_ifs with h1 h2 h3 <;>
    simp_all <;> omega

/-- C5 counterexample.  The claim says groups with equal primary-metric
values keep their first-appearance input order in the aggregate output.
On the code this is false: `groupby` pre-sorts the group keys ascending,
so a revenue tie between reps B (first in the input) and A comes out in
key order A, B rather than input order B, A. -/
theorem c5_tie_order_counterexample :
    (repPerf [("B", 50), ("A", 50)] 2).map Grp.key = ["A", "B"] ∧
    (repPerf [("B", 50), ("A", 50)] 2).map Grp.revenue = [50, 50] ∧
    firstAppearanceKeys [("B", 50), ("A", 50)] = ["B", "A"] ∧
    (repPerf [("B", 50), ("A", 50)] 2).map Grp.key
      ≠ firstAppearanceKeys [("B", 50), ("A", 50)] := by
  refine ⟨?_, ?_, ?_, ?_⟩ <;> with_unfolding_all decide

/-- C5 (amended): the rep-performance aggregate returns at most N rows,
sorted in descending order of the primary metric (the revenue sum); the
relative order of equal-metric groups is not the first-appearance input
order (see the counterexample: it follows the key-sorted grouping order). -/
theorem c5_top_n_sorted_amended (rows : List (String × ℚ)) (n : ℕ) :
    (repPerf rows n).length ≤ n ∧
    (repPerf rows n).Pairwise (fun a b => b.revenue ≤ a.revenue) := by
  constructor
  · unfold repPerf
    rw [List.length_take]
    exact min_le_left _ _
  · unfold repPerf
    exact List.Pairwise.sublist (List.take_sublist _ _) (pairwise_sortRevDesc _)

/-- C6: after the numeric-coercion pass of either loader, every cell of
every present declared numeric column is a (finite, non-null) number; every
unparseable string and every missing value has been silently replaced by
zero; the coercion is a total function (it never raises). -/
theorem c6_numeric_coercion (cols : List String) (t : Table Cell)
    (hcols : cols = salesNumericCols ∨ cols = skuNumericCols) :
    (∀ p ∈ applyNumeric cols t, p.1 ∈ cols → ∀ x ∈ p.2, ∃ q, x = Cell.num q) ∧
    (∀ s dP, toNumericFill0 (Cell.str s none dP) = Cell.num 0) ∧
    toNumericFill0 Cell.null = Cell.num 0 := by
  have hnd : cols.Nodup := by rcases hcols with rfl | rfl <;> decide
  refine ⟨?_, fun s dP => rfl, rfl⟩
  intro p hp hpc x hx
  rw [applyNumeric_eq_map cols t hnd] at hp
  rcases List.mem_map.mp hp with ⟨p0, hp0, hpeq⟩
  by_cases hin : p0.1 ∈ cols
  · rw [if_pos hin] at hpeq
    rw [← hpeq] at hx
    rcases List.mem_map.mp hx with ⟨x0, _, hxeq⟩
    rw [← hxeq]
    exact toNumericFill0_isNum x0
  · rw [if_neg hin] at hpeq
    rw [← hpeq] at hpc
    exact absurd hpc hin

/-- C6 witness: a string cell that parses as 7 in a present revenue column
is a number after coercion. -/
theorem c6_numeric_coercion_witness :
    ∃ q, Cell.num (7 : ℚ) = Cell.num q :=
  (c6_numeric_coercion salesNumericCols
      [("TOTAL_VALUES", [Cell.str "7" (some 7) none])] (Or.inl rfl)).1
    ("TOTAL_VALUES", [Cell.num 7]) (by decide) (by decide) (Cell.num 7) (by decide)

/-- C7 counterexample.  The claim says an alias is applied only when the
canonical column is not already present, so a table that already contains
the canonical name is never duplicated.  On the code this is false: the
rename loop has no such guard, and a table containing both ORDER_ID and
MATRIX_ORDER_ID ends up with two ORDER_ID columns. -/
theorem c7_alias_duplication_counterexample :
    applyAliases [("ORDER_ID", ([] : List Cell)), ("MATRIX_ORDER_ID", [])] =
      [("ORDER_ID", []), ("ORDER_ID", [])] ∧
    (colNames (applyAliases
      [("ORDER_ID", ([] : List Cell)), ("MATRIX_ORDER_ID", [])])).count "ORDER_ID" = 2 ∧
    (colNames [("ORDER_ID", ([] : List Cell)),
      ("MATRIX_ORDER_ID", [])]).count "ORDER_ID" = 1 := by
  refine ⟨rfl, rfl, rfl⟩

/-- C7 (amended): the alias pass applies the fixed alias table before type
coercion, relabelling every column whose header is an alias to its
canonical name whenever the alias is present — regardless of whether the
canonical name is already used by another column (in which case the
canonical label is duplicated, see the counterexample). -/
theorem c7_alias_rename_amended (t : Table Cell) :
    applyAliases t = t.map (fun p => (aliasCanon p.1, p.2)) := by
  unfold applyAliases
  rw [foldl_rename_eq_map]
  exact List.map_congr_left (fun p _ => by rw [foldl_skuAliases_name])

/-- C8: date detection tries ORDER_DATE, DATE, CREATION_DATE in order;
only the first present candidate is coerced and copied into ORDER_DATE,
later candidates are left untouched; unparseable date values coerce to the
null sentinel rather than raising, and every coerced cell is a date or the
null sentinel. -/
theorem c8_date_detection (t : Table Cell) :
    (firstDateCol t = none → convertDates t = t) ∧
    (∀ c, firstDateCol t = some c →
      getCol? (convertDates t) "ORDER_DATE" = some ((getColD t c).map toDatetime) ∧
      ∀ c' ∈ dateCandidates, c' ≠ c → c' ≠ "ORDER_DATE" →
        getCol? (convertDates t) c' = getCol? t c') ∧
    (∀ s nP, toDatetime (Cell.str s nP none) = Cell.null) ∧
    (∀ x : Cell, (∃ d, toDatetime x = Cell.date d) ∨ toDatetime x = Cell.null) := by
  refine ⟨?_, ?_, fun s nP => rfl, ?_⟩
  · intro h
    unfold convertDates
    rw [h]
  · intro c hc
    unfold convertDates
    rw [hc]
    constructor
    · exact getCol?_setCol_self _ _ _
    · intro c' hc' hne hneOD
      rw [getCol?_setCol_ne _ _ _ _ hneOD, getCol?_setCol_ne _ _ _ _ hne]
  · intro x
    cases x with
    | num q => exact Or.inl ⟨⌊q⌋, rfl⟩
    | date d => exact Or.inl ⟨d, rfl⟩
    | str s nP dP =>
        cases dP with
        | some d => exact Or.inl ⟨d, rfl⟩
        | none => exact Or.inr rfl
    | null => exact Or.inr rfl

/-- C8 witness: with ORDER_DATE absent, DATE present and parseable, and
CREATION_DATE also present, the DATE column is coerced and copied into
ORDER_DATE while CREATION_DATE is left untouched. -/
theorem c8_date_detection_witness :
    getCol? (convertDates
      [("DATE", [Cell.str "2024-01-05" none (some 19727)]),
       ("CREATION_DATE", [Cell.num 1])]) "ORDER_DATE" =
      some ((getColD
        [("DATE", [Cell.str "2024-01-05" none (some 19727)]),
         ("CREATION_DATE", [Cell.num 1])] "DATE").map toDatetime) ∧
    getCol? (convertDates
      [("DATE", [Cell.str "2024-01-05" none (some 19727)]),
       ("CREATION_DATE", [Cell.num 1])]) "CREATION_DATE" =
      getCol?
        [("DATE", [Cell.str "2024-01-05" none (some 19727)]),
         ("CREATION_DATE", [Cell.num 1])] "CREATION_DATE" :=
  ⟨((c8_date_detection
      [("DATE", [Cell.str "2024-01-05" none (some 19727)]),
       ("CREATION_DATE", [Cell.num 1])]).2.1 "DATE" (by decide)).1,
   ((c8_date_detection
      [("DATE", [Cell.str "2024-01-05" none (some 19727)]),
       ("CREATION_DATE", [Cell.num 1])]).2.1 "DATE" (by decide)).2
     "CREATION_DATE" (by decide) (by decide) (by decide)⟩

/-- C9: the growth series has an undefined (not-zero) first entry, the
skip-NaN mean ignores undefined entries (so the first period never counts
as zero growth), and for a monthly series of length 1 (or 0) the guarded
growth block computes nothing at all. -/
theorem c9_growth_first_undefined :
    (∀ (x : ℚ) (xs : List ℚ), (pctChangeSeries (x :: xs)).head? = some none) ∧
    (∀ x : ℚ, growthBlock [x] = none) ∧
    growthBlock [] = none ∧
    (∀ g : List (Option ℚ), meanSkipna (none :: g) = meanSkipna g) := by
  refine ⟨fun x xs => rfl, fun x => rfl, rfl, fun g => ?_⟩
  simp [meanSkipna, List.filterMap_cons]

/-- C10: the commission-rate computation is guarded: when total revenue is
positive it equals commission / revenue * 100, when revenue is zero or
negative it is 0, and at a zero denominator the division branch is never
taken (the result is the guarded 0). -/
theorem c10_commission_rate_guard (c r : ℚ) :
    (0 < r → commissionRate c r = c / r * 100) ∧
    (r ≤ 0 → commissionRate c r = 0) ∧
    commissionRate c 0 = 0 := by
  refine ⟨fun h => ?_, fun h => ?_, ?_⟩
  · unfold commissionRate
    rw [if_pos h]
  · unfold commissionRate
    rw [if_neg (not_lt.mpr h)]
  · unfold commissionRate
    norm_num

/-- C10 witness: at revenue 200 and commission 30 the rate is the real
division; at revenue -5 it is the guarded zero. -/
theorem c10_commission_rate_guard_witness :
    commissionRate 30 200 = 30 / 200 * 100 ∧ commissionRate 30 (-5) = 0 :=
  ⟨(c10_commission_rate_guard 30 200).1 (by norm_num),
   (c10_commission_rate_guard 30 (-5)).2.1 (by norm_num)⟩

end SalesApp
